import Mathlib

/-!
Verification development for the Analog calendar-normalization core.

The TypeScript source is shallowly embedded:
* Temporal date/time values become a sum type `DateValue`; an absolute point
  on the time line (Temporal.Instant) is an `Int` of epoch seconds; a
  zone-naive clock reading (Temporal.PlainDateTime) is encoded by the unique
  `Int` that reads as that clock value in UTC (the encoding is a bijection,
  so nothing is lost).
* Provider wire strings carrying a date-time are represented by their
  information content: the clock reading plus an optional UTC-offset
  designator (`Z` is `some 0`, `+hh:mm` is `some offset`, a naive string is
  `none`).
* The IANA time-zone database and the Windows-to-IANA zone-name mapping are
  an explicit environment value `TimeZoneDB`; the facts that UTC has offset
  zero and resolves to itself are recorded as fields.
* JavaScript strings holding embedded JSON are represented by the pair of
  the raw text and the result of `JSON.parse` (`none` when parsing throws).
* Fallible TypeScript code (throwing) returns `Option`/`Except`.
-/

/-- Calendar date (Temporal.PlainDate): year / month / day, no time, no zone. -/
structure PlainDate where
  year : Int
  month : Int
  day : Int
deriving DecidableEq, Repr

/-- Information content of a provider date-time string: the clock reading it
spells out (epoch-encoded as described in the header) and the UTC-offset
designator it carries, if any (`some 0` for `Z`). -/
structure WireDateTime where
  clock : Int
  offset : Option Int
deriving DecidableEq, Repr

/-- The three-variant canonical date value of the source
(`Temporal.PlainDate | Temporal.Instant | Temporal.ZonedDateTime`). -/
inductive DateValue where
  | plainDate (d : PlainDate)
  | instant (t : Int)
  | zoned (epoch : Int) (timeZoneId : String)
deriving DecidableEq, Repr

/-- Environment: time-zone rules and the zone-name resolution used by the
Microsoft `parseTimeZone` utility. `offsetAt z t` is the UTC offset (in
seconds) of zone `z` at absolute time `t`; `fromLocal z l` is the absolute
time Temporal assigns to the naive clock reading `l` interpreted in `z`
(disambiguation included); `parseTz` maps a provider zone string to an IANA
identifier (`none` when unrecognized). The three laws are facts of the real
environment: UTC has offset zero, naive readings in UTC are their own epoch,
and the string "UTC" resolves to itself. -/
structure TimeZoneDB where
  offsetAt : String → Int → Int
  fromLocal : String → Int → Int
  parseTz : String → Option String
  utc_offset : ∀ t, offsetAt "UTC" t = 0
  utc_fromLocal : ∀ l, fromLocal "UTC" l = l
  utc_parseTz : parseTz "UTC" = some "UTC"

/-- Temporal.Instant.toString: UTC projection with a `Z` designator. -/
def instantToStringWire (t : Int) : WireDateTime :=
  { clock := t, offset := some 0 }

/-- Temporal.ZonedDateTime.toString with timeZoneName "never" and offset
"auto": the local clock reading plus the numeric offset designator. -/
def zonedToStringWire (db : TimeZoneDB) (epoch : Int) (zone : String) :
    WireDateTime :=
  { clock := epoch + db.offsetAt zone epoch, offset := some (db.offsetAt zone epoch) }

/-- Temporal.Instant.from on a date-time string: requires an offset (or `Z`)
designator, otherwise throws (`none`). -/
def instantFromWire (w : WireDateTime) : Option Int :=
  w.offset.map (fun o => w.clock - o)

/-- Clock reading of Temporal.ZonedDateTime.toPlainDateTime. -/
def zonedToPlainClock (db : TimeZoneDB) (epoch : Int) (zone : String) : Int :=
  epoch + db.offsetAt zone epoch

/-- Days-to-civil-date conversion (proleptic Gregorian), used where
Temporal.PlainDate.from truncates a naive date-time string to its date. -/
def civilFromDays (z : Int) : PlainDate :=
  let z' := z + 719468
  let era := z'.fdiv 146097
  let doe := z' - era * 146097
  let yoe := (doe - doe / 1460 + doe / 36524 - doe / 146096) / 365
  let y := yoe + era * 400
  let doy := doe - (365 * yoe + yoe / 4 - yoe / 100)
  let mp := (5 * doy + 2) / 153
  let d := doy - (153 * mp + 2) / 5 + 1
  let m := mp + (if mp < 10 then 3 else -9)
  { year := y + (if m ≤ 2 then 1 else 0), month := m, day := d }

/-- Canonical attendee response status (`AttendeeStatus` in interfaces). -/
inductive AttendeeStatus where
  | accepted
  | tentative
  | declined
  | unknown
deriving DecidableEq, Repr

/-- Canonical attendee type. -/
inductive AttendeeType where
  | required
  | optional
  | resource
deriving DecidableEq, Repr

/-- Canonical attendee (interfaces/events.ts). `status` is optional here
because the Google parser forwards a possibly-absent wire status through an
unchecked cast. -/
structure Attendee where
  id : Option String
  email : String
  name : Option String
  status : Option AttendeeStatus
  type : Option AttendeeType
  comment : Option String
  organizer : Option Bool
  additionalGuests : Option Int
deriving DecidableEq, Repr

/-- Join URL of a conference entry point. -/
structure JoinUrl where
  label : Option String
  value : String
deriving DecidableEq, Repr

/-- Canonical conference entry point. -/
structure ConferenceEntryPoint where
  joinUrl : JoinUrl
  meetingCode : Option String
  accessCode : Option String
  password : Option String
deriving DecidableEq, Repr

/-- Canonical conference (interfaces/events.ts). -/
structure Conference where
  id : Option String
  conferenceId : Option String
  name : Option String
  video : Option ConferenceEntryPoint
  sip : Option ConferenceEntryPoint
  phone : Option (List ConferenceEntryPoint)
  hostUrl : Option String
  notes : Option String
  extra : Option (List (String × String))
deriving DecidableEq, Repr

/-- Result of the external meeting-link detection heuristic.
Modelled from the spec: the `detectMeetingLink` function of the
`@analog/meeting-links` package is not part of the provided sources; per
§4.6 it pattern-matches a URL against known meeting-provider shapes and, on
success, yields the detected service id, display name and join URL. The
codec functions below take the heuristic as an explicit parameter. -/
structure MeetingService where
  id : String
  name : String
  joinUrl : String
deriving DecidableEq, Repr

/-- JSON value tree (numbers restricted to the integers the code
inspects). -/
inductive JsonVal where
  | null
  | bool (b : Bool)
  | num (n : Int)
  | str (s : String)
  | arr (xs : List JsonVal)
  | obj (fields : List (String × JsonVal))

/-- A JavaScript string carrying embedded JSON: the raw text (for
truthiness) together with the result of `JSON.parse` on it (`none` when
parsing throws). -/
structure JSString where
  raw : String
  json : Option JsonVal

/-- Blocked-time window kept in event metadata. -/
structure BlockedTime where
  before : Option Int
  after : Option Int
deriving DecidableEq, Repr

/-- Truthiness of an optional JavaScript string: absent or empty is falsy. -/
def truthy : Option String → Bool
  | some s => !(s == "")
  | none => false

/-- Lookup in a JavaScript record modelled as an association list. -/
def recordGet (m : List (String × JSString)) (key : String) : Option JSString :=
  (m.find? (fun p => p.1 == key)).map (·.2)

/-- JavaScript `a || b` over possibly-undefined strings (empty is falsy). -/
def jsOr (a b : Option JSString) : Option JSString :=
  match a with
  | some s => if s.raw == "" then b else some s
  | none => b

/-- Field access `parsed.key` guarded by `typeof parsed.key === "number"`. -/
def getNumField (v : JsonVal) (key : String) : Option Int :=
  match v with
  | .obj fields =>
      match (fields.find? (fun p => p.1 == key)).map (·.2) with
      | some (JsonVal.num n) => some n
      | _ => none
  | _ => none

/-- JSON-validation block shared verbatim by the Google and Microsoft
blocked-time parsers: keep `before`/`after` only when they are numbers
strictly greater than zero; when no field survives, return nothing at all
(`Object.keys(result).length > 0` check); when `JSON.parse` threw
(`none`), return nothing. -/
def validateBlockedTime (j : Option JsonVal) : Option BlockedTime :=
  match j with
  | none => none
  | some v =>
      let result : BlockedTime :=
        { before :=
            match getNumField v "before" with
            | some n => if 0 < n then some n else none
            | none => none
          after :=
            match getNumField v "after" with
            | some n => if 0 < n then some n else none
            | none => none }
      if result.before.isNone && result.after.isNone then none else some result

/-- Google wire date field: `{ date }` (GoogleCalendarDate) or
`{ dateTime, timeZone? }` (GoogleCalendarDateTime). -/
inductive GoogleDateWire where
  | date (d : PlainDate)
  | dateTime (w : WireDateTime) (timeZone : Option String)
deriving DecidableEq, Repr

/-- GoogleCalendarEventAttendeeResponseStatus. -/
inductive GoogleResponseStatus where
  | needsAction
  | declined
  | tentative
  | accepted
deriving DecidableEq, Repr

/-- Google wire attendee. -/
structure GoogleCalendarEventAttendee where
  id : Option String
  email : Option String
  displayName : Option String
  optional : Option Bool
  resource : Option Bool
  responseStatus : Option GoogleResponseStatus
  comment : Option String
  additionalGuests : Option Int
  self : Option Bool
  organizer : Option Bool
deriving DecidableEq, Repr

/-- Google wire conference solution (only the consumed field). -/
structure GoogleConferenceSolution where
  name : Option String
deriving DecidableEq, Repr

/-- Google wire conference entry point. -/
structure GoogleEntryPoint where
  entryPointType : Option String
  uri : Option String
  label : Option String
  meetingCode : Option String
  accessCode : Option String
  password : Option String
deriving DecidableEq, Repr

/-- Google wire conference data. -/
structure GoogleConferenceData where
  conferenceId : Option String
  conferenceSolution : Option GoogleConferenceSolution
  entryPoints : Option (List GoogleEntryPoint)
deriving DecidableEq, Repr

/-- Google extended properties; `priv` embeds the source field named
`private` (a Lean keyword). -/
structure GoogleExtendedProperties where
  priv : Option (List (String × JSString))
  shared : Option (List (String × JSString))

/-- Google wire `source` field. -/
structure GoogleSource where
  url : Option String
deriving DecidableEq, Repr

/-- Google wire attachment. -/
structure GoogleAttachment where
  fileUrl : Option String
deriving DecidableEq, Repr

/-- Google wire gadget. -/
structure GoogleGadget where
  link : Option String
deriving DecidableEq, Repr

/-- The Google wire event, restricted to the fields consumed by the
functions embedded here. -/
structure GoogleCalendarEvent where
  hangoutLink : Option String
  description : Option String
  location : Option String
  source : Option GoogleSource
  attachments : Option (List GoogleAttachment)
  gadget : Option GoogleGadget
  conferenceData : Option GoogleConferenceData
  attendees : Option (List GoogleCalendarEventAttendee)
  extendedProperties : Option GoogleExtendedProperties

namespace Google

/-- google-calendar/events.ts `toGoogleCalendarDate`. -/
def toGoogleCalendarDate (db : TimeZoneDB) : DateValue → GoogleDateWire
  | .plainDate d => .date d
  | .instant t => .dateTime (instantToStringWire t) none
  | .zoned t zone => .dateTime (zonedToStringWire db t zone) (some zone)

/-- google-calendar/events.ts `parseDate`: `Temporal.PlainDate.from` on the
emitted date string; at the structured wire level `from` after `toString`
is the identity on the date. -/
def parseDate (d : PlainDate) : DateValue :=
  DateValue.plainDate d

/-- google-calendar/events.ts `parseDateTime`: `Temporal.Instant.from` on
the string (throws without an offset designator), then
`toZonedDateTimeISO` when a zone accompanies it. -/
def parseDateTime (w : WireDateTime) (timeZone : Option String) : Option DateValue :=
  (instantFromWire w).map fun t =>
    match timeZone with
    | none => .instant t
    | some z => .zoned t z

/-- Date-field dispatch of `parseGoogleCalendarEvent`: a `{date}` field
(no `dateTime`) is all-day and goes through `parseDate`, otherwise
`parseDateTime`. -/
def parseGoogleDateValue : GoogleDateWire → Option DateValue
  | .date d => some (parseDate d)
  | .dateTime w tz => parseDateTime w tz

/-- google-calendar/events.ts `toGoogleCalenderResponseStatus` (source
spelling kept). -/
def toGoogleCalenderResponseStatus : AttendeeStatus → GoogleResponseStatus
  | .unknown => .needsAction
  | .accepted => .accepted
  | .tentative => .tentative
  | .declined => .declined

/-- google-calendar/events.ts `toGoogleCalendarAttendeeResponseStatus`
(identical body, exported separately in the source). -/
def toGoogleCalendarAttendeeResponseStatus : AttendeeStatus → GoogleResponseStatus
  | .unknown => .needsAction
  | .accepted => .accepted
  | .tentative => .tentative
  | .declined => .declined

/-- google-calendar/events.ts `parseGoogleCalendarAttendeeStatus`. -/
def parseGoogleCalendarAttendeeStatus : GoogleResponseStatus → AttendeeStatus
  | .needsAction => .unknown
  | .accepted => .accepted
  | .tentative => .tentative
  | .declined => .declined

/-- google-calendar/events.ts `parseGoogleCalendarAttendeeType`. -/
def parseGoogleCalendarAttendeeType (a : GoogleCalendarEventAttendee) : AttendeeType :=
  if a.resource.getD false then .resource
  else if a.optional.getD false then .optional
  else .required

/-- google-calendar/events.ts `parseGoogleCalendarAttendee`; the status
cast in the source forwards an absent wire status unchanged. -/
def parseGoogleCalendarAttendee (a : GoogleCalendarEventAttendee) : Attendee :=
  { id := a.id
    email := a.email.getD ""
    name := a.displayName
    status := a.responseStatus.map parseGoogleCalendarAttendeeStatus
    type := some (parseGoogleCalendarAttendeeType a)
    comment := a.comment
    organizer := a.organizer
    additionalGuests := a.additionalGuests }

/-- Truthiness of the `organizer` flag as used by the `findIndex`
predicate. -/
def isOrganizer (a : Attendee) : Bool :=
  a.organizer.getD false

/-- google-calendar/events.ts `parseGoogleCalendarAttendeeList`: map all
attendees, then move the first organizer-flagged attendee to index 0 when
its index is positive (`findIndex`, `splice`, `unshift`). -/
def parseGoogleCalendarAttendeeList
    (attendees : List GoogleCalendarEventAttendee) : List Attendee :=
  let mapped := attendees.map parseGoogleCalendarAttendee
  match mapped.findIdx? isOrganizer with
  | some k =>
      if 0 < k then
        match mapped[k]? with
        | some org => org :: mapped.eraseIdx k
        | none => mapped
      else mapped
  | none => mapped

/-- google-calendar/events.ts `parseBlockedTime` (Google): private map's
`blockedTime` first, falling back to the shared map through JavaScript
`||`, then the shared JSON-validation block. -/
def parseBlockedTime (event : GoogleCalendarEvent) : Option BlockedTime :=
  match event.extendedProperties with
  | none => none
  | some ep =>
      if ep.priv.isNone && ep.shared.isNone then none
      else
        match jsOr (ep.priv.bind (recordGet · "blockedTime"))
            (ep.shared.bind (recordGet · "blockedTime")) with
        | none => none
        | some s => if s.raw == "" then none else validateBlockedTime s.json

/-- google-calendar/events.ts `checkMeetingLink` (local helper of the
conference fallback): wrap a detected meeting service as a conference. -/
def checkMeetingLink (detect : String → Option MeetingService)
    (url : String) : Option Conference :=
  (detect url).map fun service =>
    { id := some service.id
      conferenceId := none
      name := some service.name
      video := some
        { joinUrl := { label := none, value := service.joinUrl }
          meetingCode := some service.id
          accessCode := none
          password := none }
      sip := none
      phone := none
      hostUrl := none
      notes := none
      extra := none }

/-- One direct-URL section of the fallback scan: a truthiness-guarded
field checked through `checkMeetingLink` (sections 1, 4 and 6 of the
source, with the optional chaining `source?.url` / `gadget?.link`
flattened into the option). -/
def urlFieldHit (detect : String → Option MeetingService)
    (o : Option String) : Option Conference :=
  match o with
  | some u => if u == "" then none else checkMeetingLink detect u
  | none => none

/-- One free-text section of the fallback scan: a truthiness-guarded text
field whose extracted URLs are tried in order (sections 2 and 3 of the
source). -/
def textFieldHit (detect : String → Option MeetingService)
    (extractUrls : String → List String) (o : Option String) : Option Conference :=
  match o with
  | some d => if d == "" then none else (extractUrls d).findSome? (checkMeetingLink detect)
  | none => none

/-- The attachments section of the fallback scan: each attachment's
truthiness-guarded `fileUrl` tried in order (section 5 of the source). -/
def attachmentsHit (detect : String → Option MeetingService)
    (o : Option (List GoogleAttachment)) : Option Conference :=
  match o with
  | some atts => atts.findSome? fun a => urlFieldHit detect a.fileUrl
  | none => none

/-- google-calendar/events.ts `parseGoogleCalendarConferenceFallback`:
scan the hangout link, description URLs, location URLs, source URL,
attachment file URLs and gadget link in that order, returning the first
detected conference (the source's early returns become `<|>`). `detect`
embeds the external `detectMeetingLink` heuristic and `extractUrls` the
local URL-extraction regex. -/
def parseGoogleCalendarConferenceFallback
    (detect : String → Option MeetingService)
    (extractUrls : String → List String)
    (event : GoogleCalendarEvent) : Option Conference :=
  urlFieldHit detect event.hangoutLink <|>
  textFieldHit detect extractUrls event.description <|>
  textFieldHit detect extractUrls event.location <|>
  urlFieldHit detect (event.source.bind (·.url)) <|>
  attachmentsHit detect event.attachments <|>
  urlFieldHit detect (event.gadget.bind (·.link))

/-- Candidate URLs contributed by a direct-URL section. -/
def urlFieldCand (o : Option String) : List String :=
  match o with
  | some u => if u == "" then [] else [u]
  | none => []

/-- Candidate URLs contributed by a free-text section. -/
def textFieldCand (extractUrls : String → List String)
    (o : Option String) : List String :=
  match o with
  | some d => if d == "" then [] else extractUrls d
  | none => []

/-- Candidate URLs contributed by the attachments section. -/
def attachmentsCand (o : Option (List GoogleAttachment)) : List String :=
  match o with
  | some atts => atts.flatMap fun a => urlFieldCand a.fileUrl
  | none => []

/-- Ordered candidate URLs of the fallback scan as the spec words it
(§4.6): hangout link, then description URLs, location URLs, source URL,
attachment file URLs, gadget link. -/
def fallbackCandidateUrls (extractUrls : String → List String)
    (event : GoogleCalendarEvent) : List String :=
  urlFieldCand event.hangoutLink ++
  textFieldCand extractUrls event.description ++
  textFieldCand extractUrls event.location ++
  urlFieldCand (event.source.bind (·.url)) ++
  attachmentsCand event.attachments ++
  urlFieldCand (event.gadget.bind (·.link))

/-- google-calendar/events.ts `parseGoogleCalendarConferenceData`:
primary extraction from native entry points, with the fallback scan when
`conferenceData?.entryPoints?.length` is falsy. -/
def parseGoogleCalendarConferenceData
    (detect : String → Option MeetingService)
    (extractUrls : String → List String)
    (event : GoogleCalendarEvent) : Option Conference :=
  match event.conferenceData with
  | none => parseGoogleCalendarConferenceFallback detect extractUrls event
  | some cd =>
      match cd.entryPoints with
      | none => parseGoogleCalendarConferenceFallback detect extractUrls event
      | some eps =>
          if eps.isEmpty then
            parseGoogleCalendarConferenceFallback detect extractUrls event
          else
            let videoEntryPoint := eps.find? (fun e => e.entryPointType == some "video")
            let sipEntryPoint := eps.find? (fun e => e.entryPointType == some "sip")
            let phoneEntryPoints :=
              eps.filter (fun e => e.entryPointType == some "phone" && truthy e.uri)
            some
              { id :=
                  match videoEntryPoint.bind (·.uri) with
                  | some u => if u == "" then none else (detect u).map (·.id)
                  | none => none
                conferenceId := cd.conferenceId
                name := cd.conferenceSolution.bind (·.name)
                video :=
                  videoEntryPoint.bind fun e =>
                    match e.uri with
                    | some u =>
                        if u == "" then none
                        else some
                          { joinUrl := { label := e.label, value := u }
                            meetingCode := e.meetingCode
                            accessCode := e.accessCode
                            password := e.password }
                    | none => none
                sip :=
                  sipEntryPoint.bind fun e =>
                    match e.uri with
                    | some u =>
                        if u == "" then none
                        else some
                          { joinUrl := { label := e.label, value := u }
                            meetingCode := e.meetingCode
                            accessCode := e.accessCode
                            password := e.password }
                    | none => none
                phone :=
                  if phoneEntryPoints.isEmpty then none
                  else some
                    (phoneEntryPoints.map fun e =>
                      { joinUrl := { label := e.label, value := e.uri.getD "" }
                        meetingCode := e.meetingCode
                        accessCode := e.accessCode
                        password := e.password })
                hostUrl := none
                notes := none
                extra := none }

end Google

/-- Whether the pattern starts at the head of the character list. -/
def charsHasLead : List Char → List Char → Bool
  | _, [] => true
  | [], _ :: _ => false
  | c :: cs, p :: ps => c == p && charsHasLead cs ps

/-- Whether the pattern occurs anywhere in the character list. -/
def charsIncludes : List Char → List Char → Bool
  | [], pat => pat.isEmpty
  | c :: cs, pat => charsHasLead (c :: cs) pat || charsIncludes cs pat

/-- JavaScript `String.prototype.includes`. -/
def strIncludes (s pat : String) : Bool :=
  charsIncludes s.data pat.data

/-- Microsoft wire date-time string: a date-only form or a date-time form. -/
inductive MsDateTimeStr where
  | dateOnly (d : PlainDate)
  | dateTime (w : WireDateTime)
deriving DecidableEq, Repr

/-- Payload produced by `toMicrosoftDate`: both fields always present. -/
structure MicrosoftDateWire where
  dateTime : MsDateTimeStr
  timeZone : String
deriving DecidableEq, Repr

/-- Inbound Microsoft `start`/`end` field (Graph `DateTimeTimeZone`). -/
structure MicrosoftDateTimeTimeZone where
  dateTime : Option MsDateTimeStr
  timeZone : Option String
deriving DecidableEq, Repr

/-- Time-zone provenance kept in metadata: raw provider string plus its
parsed canonical identifier. -/
structure TimeZoneProvenance where
  raw : String
  parsed : Option String
deriving DecidableEq, Repr

/-- Microsoft Graph attendee response values (`ResponseType`); `msNone`
embeds the wire string "none". -/
inductive MicrosoftResponseType where
  | msNone
  | organizer
  | tentativelyAccepted
  | accepted
  | declined
  | notResponded
deriving DecidableEq, Repr

/-- Microsoft Graph `ResponseStatus`. -/
structure MicrosoftResponseStatus where
  response : Option MicrosoftResponseType
deriving DecidableEq, Repr

/-- Microsoft Graph `EmailAddress`. -/
structure MicrosoftEmailAddress where
  address : Option String
  name : Option String
deriving DecidableEq, Repr

/-- Microsoft Graph `Attendee`. -/
structure MicrosoftEventAttendee where
  emailAddress : Option MicrosoftEmailAddress
  type : Option AttendeeType
  status : Option MicrosoftResponseStatus
deriving DecidableEq, Repr

/-- Microsoft Graph `Location` (consumed fields). -/
structure MicrosoftLocation where
  displayName : Option String
  locationUri : Option String
deriving DecidableEq, Repr

/-- Microsoft Graph `Phone` inside `OnlineMeetingInfo`. -/
structure OnlineMeetingPhone where
  number : Option String
deriving DecidableEq, Repr

/-- Microsoft Graph `OnlineMeetingInfo` (consumed fields). -/
structure OnlineMeetingInfo where
  joinUrl : Option String
  conferenceId : Option String
  phones : Option (List OnlineMeetingPhone)
deriving DecidableEq, Repr

/-- Microsoft Graph `OnlineMeetingProviderType` (consumed values). -/
inductive OnlineMeetingProviderType where
  | unknownProvider
  | teamsForBusiness
  | skypeForBusiness
deriving DecidableEq, Repr

/-- Microsoft Graph `SingleValueLegacyExtendedProperty`. -/
structure SingleValueExtendedProperty where
  id : Option String
  value : Option JSString

/-- The Microsoft wire event, restricted to the consumed fields. -/
structure MicrosoftEvent where
  id : Option String
  subject : Option String
  bodyPreview : Option String
  start : Option MicrosoftDateTimeTimeZone
  stop : Option MicrosoftDateTimeTimeZone
  isAllDay : Option Bool
  location : Option MicrosoftLocation
  showAs : Option String
  attendees : Option (List MicrosoftEventAttendee)
  webLink : Option String
  onlineMeeting : Option OnlineMeetingInfo
  onlineMeetingUrl : Option String
  onlineMeetingProvider : Option OnlineMeetingProviderType
  originalStartTimeZone : Option String
  originalEndTimeZone : Option String
  responseStatus : Option MicrosoftResponseStatus
  singleValueExtendedProperties : Option (List SingleValueExtendedProperty)

/-- Canonical viewer response carried on an event. -/
structure EventResponse where
  status : AttendeeStatus
  comment : Option String
deriving DecidableEq, Repr

/-- Metadata produced by the Microsoft event parser. -/
structure MsParsedMetadata where
  originalStartTimeZone : Option TimeZoneProvenance
  originalEndTimeZone : Option TimeZoneProvenance
  onlineMeeting : Option OnlineMeetingInfo
  blockedTime : Option BlockedTime
deriving DecidableEq, Repr

/-- Owning calendar (consumed fields). -/
structure Calendar where
  id : String
  readOnly : Bool
deriving DecidableEq, Repr

/-- Canonical event as produced by the Microsoft parser (the Google
parser's metadata shape is not formalized here). -/
structure CalendarEvent where
  id : Option String
  title : Option String
  description : Option String
  start : DateValue
  stop : DateValue
  allDay : Bool
  location : Option String
  status : Option String
  attendees : List Attendee
  url : Option String
  color : Option String
  providerId : String
  accountId : String
  calendarId : String
  readOnly : Bool
  conference : Option Conference
  response : Option EventResponse
  recurringEventId : Option String
  metadata : MsParsedMetadata
deriving DecidableEq

namespace Microsoft

/-- microsoft-calendar/events.ts `toMicrosoftDate`. -/
def toMicrosoftDate (db : TimeZoneDB) (value : DateValue)
    (originalTimeZone : Option TimeZoneProvenance) : MicrosoftDateWire :=
  match value with
  | .plainDate d =>
      { dateTime := .dateOnly d
        timeZone := (originalTimeZone.map (·.raw)).getD "UTC" }
  | .instant t =>
      { dateTime := .dateTime { clock := zonedToPlainClock db t "UTC", offset := none }
        timeZone := "UTC" }
  | .zoned t zone =>
      { dateTime := .dateTime (instantToStringWire t)
        timeZone :=
          match originalTimeZone with
          | some o => if o.parsed = some zone then o.raw else zone
          | none => zone }

/-- microsoft-calendar/events.ts `parseDate`: `Temporal.PlainDate.from` on
the wire string — a date-only string directly, a naive date-time string
truncated to its date, a string with an offset or `Z` designator throws. -/
def parseDate (s : MsDateTimeStr) : Option PlainDate :=
  match s with
  | .dateOnly d => some d
  | .dateTime w =>
      match w.offset with
      | none => some (civilFromDays (w.clock.fdiv 86400))
      | some _ => none

/-- Modelled from the spec: `parseTimeZone` of microsoft-calendar/utils is
not among the provided sources. Per §4.1 and the glossary it resolves a
provider zone string (Windows or IANA name) to a canonical IANA
identifier; the environment's mapping is `TimeZoneDB.parseTz`. -/
def parseTimeZone (db : TimeZoneDB) (zone : String) : Option String :=
  db.parseTz zone

/-- Modelled from the spec: `parseDateTime` of microsoft-calendar/utils is
not among the provided sources. Per §4.1 "a date-time field with a zone
yields a zoned date-time anchored to that zone": an absolute string keeps
its instant, a naive string is interpreted in the zone, and a date-only
field yields a calendar date. -/
def parseDateTime (db : TimeZoneDB) (s : MsDateTimeStr) (zone : String) : DateValue :=
  let rz := (db.parseTz zone).getD zone
  match s with
  | .dateOnly d => .plainDate d
  | .dateTime w =>
      match w.offset with
      | some o => .zoned (w.clock - o) rz
      | none => .zoned (db.fromLocal rz w.clock) rz

/-- microsoft-calendar/events.ts `parseMicrosoftAttendeeStatus`. -/
def parseMicrosoftAttendeeStatus (status : Option MicrosoftResponseType) : AttendeeStatus :=
  match status with
  | some .notResponded => .unknown
  | some .msNone => .unknown
  | some .accepted => .accepted
  | some .organizer => .accepted
  | some .tentativelyAccepted => .tentative
  | some .declined => .declined
  | none => .unknown

/-- microsoft-calendar/events.ts `parseMicrosoftAttendee`. -/
def parseMicrosoftAttendee (a : MicrosoftEventAttendee) : Attendee :=
  { id := none
    email := (a.emailAddress.bind (·.address)).getD ""
    name := a.emailAddress.bind (·.name)
    status := some (parseMicrosoftAttendeeStatus (a.status.bind (·.response)))
    type := a.type
    comment := none
    organizer := none
    additionalGuests := none }

/-- microsoft-calendar/events.ts `parseResponseStatus`: the viewer's own
status, present only when an organizer-flagged attendee exists and another
attendee accompanies it. -/
def parseResponseStatus (event : MicrosoftEvent) : Option AttendeeStatus :=
  let organizerIsAttendee :=
    (event.attendees.map fun l =>
      l.any fun a => a.status.bind (·.response) == some .organizer).getD false
  if event.attendees.isNone || !organizerIsAttendee
      || (event.attendees.getD []).length == 0 then none
  else
    let hasOtherAttendees :=
      organizerIsAttendee && decide (1 < (event.attendees.getD []).length)
    if !hasOtherAttendees then none
    else
      match event.responseStatus.bind (·.response) with
      | some r => some (parseMicrosoftAttendeeStatus (some r))
      | none => none

/-- microsoft-calendar/events.ts `parseBlockedTime` (Microsoft): the
single-value extended property whose id contains "Name blockedTime",
then the shared JSON-validation block. -/
def parseBlockedTime (event : MicrosoftEvent) : Option BlockedTime :=
  match event.singleValueExtendedProperties with
  | none => none
  | some props =>
      let blockedTimeProperty := props.find? fun p =>
        match p.id with
        | some i => !(i == "") && strIncludes i "Name blockedTime"
        | none => false
      match blockedTimeProperty with
      | none => none
      | some p =>
          match p.value with
          | none => none
          | some v => if v.raw == "" then none else validateBlockedTime v.json

/-- Conference record built by the Microsoft fallback and online-meeting
paths from a detected service. -/
def msConfOfService (service : MeetingService) : Conference :=
  { id := some service.id
    conferenceId := none
    name := some service.name
    video := some
      { joinUrl := { label := none, value := service.joinUrl }
        meetingCode := none
        accessCode := none
        password := none }
    sip := none
    phone := none
    hostUrl := none
    notes := none
    extra := none }

/-- microsoft-calendar/events.ts `parseConferenceFallback`: location URI
first, then the location display name. -/
def parseConferenceFallback (detect : String → Option MeetingService)
    (event : MicrosoftEvent) : Option Conference :=
  match event.location with
  | none => none
  | some loc =>
      (match loc.locationUri with
       | some u => if u == "" then none else (detect u).map msConfOfService
       | none => none) <|>
      (match loc.displayName with
       | some dn => if dn == "" then none else (detect dn).map msConfOfService
       | none => none)

/-- `number.replace` dropping dash and space characters. -/
def stripDashSpace (s : String) : String :=
  String.mk (s.data.filter fun c => !(c == '-' || c == ' '))

/-- microsoft-calendar/events.ts `parseMicrosoftConference`. -/
def parseMicrosoftConference (detect : String → Option MeetingService)
    (event : MicrosoftEvent) : Option Conference :=
  let joinUrl :=
    match event.onlineMeeting.bind (·.joinUrl) with
    | some u => some u
    | none => event.onlineMeetingUrl
  match joinUrl with
  | none => parseConferenceFallback detect event
  | some u =>
      if u == "" then parseConferenceFallback detect event
      else
        let phoneNumbers :=
          (event.onlineMeeting.bind (·.phones)).map fun ps =>
            (ps.filterMap (·.number)).filter fun n => !(n == "")
        some
          { id := (detect u).map (·.id)
            conferenceId := event.onlineMeeting.bind (·.conferenceId)
            name :=
              if event.onlineMeetingProvider == some .teamsForBusiness then
                some "Microsoft Teams"
              else none
            video := some
              { joinUrl := { label := none, value := u }
                meetingCode := event.onlineMeeting.bind (·.conferenceId)
                accessCode := none
                password := none }
            sip := none
            phone :=
              match phoneNumbers with
              | some ns =>
                  if ns.isEmpty then none
                  else some
                    (ns.map fun number =>
                      { joinUrl :=
                          { label := some number
                            value :=
                              if number.startsWith "tel:" then number
                              else "tel:" ++ stripDashSpace number }
                        meetingCode := none
                        accessCode := none
                        password := none })
              | none => none
            hostUrl := none
            notes := none
            extra := none }

/-- Required-field extraction modelling a non-null assertion whose absence
would make the surrounding Temporal call throw. -/
def reqField {α : Type} (msg : String) : Option α → Except String α
  | some a => Except.ok a
  | none => Except.error msg

/-- One date field of `parseMicrosoftEvent`:
`isAllDay ? parseDate(field.dateTime!) : parseDateTime(field.dateTime!,
field.timeZone!)`, with a thrown Temporal error when a required piece is
absent or the all-day string is not date-shaped. -/
def msDateField (db : TimeZoneDB) (isAllDay : Bool)
    (field : MicrosoftDateTimeTimeZone) : Except String DateValue :=
  Except.bind (reqField "dateTime missing" field.dateTime) fun dt =>
    if isAllDay then
      Except.map DateValue.plainDate (reqField "invalid plain date" (parseDate dt))
    else
      Except.bind (reqField "timeZone missing" field.timeZone) fun tz =>
        Except.ok (parseDateTime db dt tz)

/-- microsoft-calendar/events.ts `parseMicrosoftEvent`. -/
def parseMicrosoftEvent (db : TimeZoneDB) (detect : String → Option MeetingService)
    (accountId : String) (calendar : Calendar) (event : MicrosoftEvent) :
    Except String CalendarEvent :=
  match event.start, event.stop with
  | some start, some stop =>
      Except.bind (msDateField db (event.isAllDay.getD false) start) fun startVal =>
      Except.bind (msDateField db (event.isAllDay.getD false) stop) fun stopVal =>
      Except.ok
        { id := event.id
          title := event.subject
          description := event.bodyPreview
          start := startVal
          stop := stopVal
          allDay := event.isAllDay.getD false
          location := event.location.bind (·.displayName)
          status := event.showAs
          attendees := (event.attendees.getD []).map parseMicrosoftAttendee
          url := event.webLink
          color := none
          providerId := "microsoft"
          accountId := accountId
          calendarId := calendar.id
          readOnly := calendar.readOnly
          conference := parseMicrosoftConference detect event
          response := (parseResponseStatus event).map fun s =>
            { status := s, comment := none }
          recurringEventId := none
          metadata :=
            { originalStartTimeZone :=
                event.originalStartTimeZone.map fun r =>
                  { raw := r, parsed := db.parseTz r }
              originalEndTimeZone :=
                event.originalEndTimeZone.map fun r =>
                  { raw := r, parsed := db.parseTz r }
              onlineMeeting := event.onlineMeeting
              blockedTime := parseBlockedTime event } }
  | _, _ => Except.error "Event start or end is missing"

/-- microsoft-calendar/events.ts `eventResponseStatusPath`; the source
throws on any status outside the three mapped ones (`none`). -/
inductive ResponsePath where
  | accept
  | tentativelyAccept
  | decline
deriving DecidableEq, Repr

/-- Path selection for the response-submission side call. -/
def eventResponseStatusPath (status : AttendeeStatus) : Option ResponsePath :=
  if status = .accepted then some .accept
  else if status = .tentative then some .tentativelyAccept
  else if status = .declined then some .decline
  else none

/-- Response payload of `UpdateEventInput.response` /
`ResponseToEventInput`. -/
structure ResponseInput where
  status : AttendeeStatus
  comment : Option String
  sendUpdate : Bool
deriving DecidableEq, Repr

/-- The update input restricted to the field deciding the side call; the
remaining fields only feed the patch body. -/
structure UpdateEventInput where
  response : Option ResponseInput
deriving DecidableEq, Repr

/-- Network operations issued by the Microsoft provider's event-update
paths; the patch body (built by `toMicrosoftEvent`) is irrelevant to which
endpoints are hit and is omitted. -/
inductive MsApiCall where
  | patchEvent
  | postResponse (path : ResponsePath) (comment : Option String) (sendResponse : Bool)
deriving DecidableEq, Repr

/-- Whether a call is a request to the accept / tentativelyAccept /
decline endpoint. -/
def isResponseSubmission : MsApiCall → Bool
  | .postResponse _ _ _ => true
  | _ => false

/-- Trace of `MicrosoftCalendarProvider.updateEvent`: the patch first,
then the side call exactly when a response with a status other than
`unknown` is carried (a thrown path selection issues nothing). -/
def updateEventCalls (event : UpdateEventInput) : List MsApiCall :=
  MsApiCall.patchEvent ::
    (match event.response with
     | some r =>
         if r.status = .unknown then []
         else
           match eventResponseStatusPath r.status with
           | some p => [.postResponse p r.comment r.sendUpdate]
           | none => []
     | none => [])

/-- Trace of `MicrosoftCalendarProvider.responseToEvent`: nothing when the
status is `unknown`, one post otherwise. -/
def responseToEventCalls (response : ResponseInput) : List MsApiCall :=
  if response.status = .unknown then []
  else
    match eventResponseStatusPath response.status with
    | some p => [.postResponse p response.comment response.sendUpdate]
    | none => []

end Microsoft

/-- Concrete time-zone environment for witnesses and counterexamples:
every offset zero, one Windows-name mapping. -/
def tzdb0 : TimeZoneDB :=
  { offsetAt := fun _ _ => 0
    fromLocal := fun _ l => l
    parseTz := fun z =>
      some (if z = "W. Europe Standard Time" then "Europe/Berlin" else z)
    utc_offset := fun _ => rfl
    utc_fromLocal := fun _ => rfl
    utc_parseTz := by simp }

/-- Concrete meeting-link detector for witnesses and counterexamples. -/
def detect0 : String → Option MeetingService := fun u =>
  if u = "https://meet.example.com/a" then
    some { id := "meetA", name := "Meet A", joinUrl := "https://meet.example.com/a" }
  else if u = "https://zoom.example.com/b" then
    some { id := "zoomB", name := "Zoom B", joinUrl := "https://zoom.example.com/b" }
  else none

/-- Concrete URL extraction for witnesses: the text is itself the URL. -/
def extract0 : String → List String := fun s => [s]

/-- Google wire attendee flagged as organizer (first). -/
def cexOrganizerA : GoogleCalendarEventAttendee :=
  { id := none, email := some "orga@example.com", displayName := none
    optional := none, resource := none, responseStatus := some .accepted
    comment := none, additionalGuests := none, self := none, organizer := some true }

/-- Google wire attendee without flags. -/
def cexPlainB : GoogleCalendarEventAttendee :=
  { id := none, email := some "b@example.com", displayName := none
    optional := none, resource := none, responseStatus := some .tentative
    comment := none, additionalGuests := none, self := none, organizer := none }

/-- Google wire attendee flagged as organizer (second). -/
def cexOrganizerC : GoogleCalendarEventAttendee :=
  { id := none, email := some "orgc@example.com", displayName := none
    optional := none, resource := none, responseStatus := some .declined
    comment := none, additionalGuests := none, self := none, organizer := some true }

/-- The blocked-time JSON of §8: before -1, after 15. -/
def bt1 : JSString :=
  { raw := "\x7b\"before\":-1,\"after\":15\x7d"
    json := some (.obj [("before", .num (-1)), ("after", .num 15)]) }

/-- The blocked-time JSON of §8: before 0, after 0. -/
def bt2 : JSString :=
  { raw := "\x7b\"before\":0,\"after\":0\x7d"
    json := some (.obj [("before", .num 0), ("after", .num 0)]) }

/-- Malformed blocked-time JSON: `JSON.parse` throws. -/
def btBad : JSString :=
  { raw := "not json", json := none }

/-- Valid blocked-time JSON carried by the shared map: after 5. -/
def btShared5 : JSString :=
  { raw := "\x7b\"after\":5\x7d", json := some (.obj [("after", .num 5)]) }

/-- The empty string (falsy; `JSON.parse` on it throws). -/
def emptyJsStr : JSString :=
  { raw := "", json := none }

/-- Google wire event with every consumed field absent. -/
def gEvBase : GoogleCalendarEvent :=
  { hangoutLink := none, description := none, location := none, source := none
    attachments := none, gadget := none, conferenceData := none
    attendees := none, extendedProperties := none }

/-- Google wire event with given extended properties. -/
def mkGoogleEpEvent (ep : GoogleExtendedProperties) : GoogleCalendarEvent :=
  { gEvBase with extendedProperties := some ep }

/-- Google wire event whose private map holds the given blocked-time
string. -/
def mkGoogleBtEvent (s : JSString) : GoogleCalendarEvent :=
  mkGoogleEpEvent { priv := some [("blockedTime", s)], shared := none }

/-- Microsoft wire event with every consumed field absent. -/
def msEvBase : MicrosoftEvent :=
  { id := none, subject := none, bodyPreview := none, start := none, stop := none
    isAllDay := none, location := none, showAs := none, attendees := none
    webLink := none, onlineMeeting := none, onlineMeetingUrl := none
    onlineMeetingProvider := none, originalStartTimeZone := none
    originalEndTimeZone := none, responseStatus := none
    singleValueExtendedProperties := none }

/-- Microsoft wire event carrying the given blocked-time string in a
single-value extended property with the marker-bearing id. -/
def mkMsBtEvent (s : JSString) : MicrosoftEvent :=
  { msEvBase with
      singleValueExtendedProperties :=
        some [{ id := some "String \x7bcafebabe\x7d Name blockedTime", value := some s }] }

/-- All-day Microsoft wire event used as a parse witness. -/
def msEvX : MicrosoftEvent :=
  { msEvBase with
      start := some { dateTime := some (.dateOnly ⟨2024, 3, 1⟩), timeZone := none }
      stop := some { dateTime := some (.dateOnly ⟨2024, 3, 1⟩), timeZone := none }
      isAllDay := some true }

/-- Expected canonical event for `msEvX`. -/
def ceX : CalendarEvent :=
  { id := none, title := none, description := none
    start := .plainDate ⟨2024, 3, 1⟩, stop := .plainDate ⟨2024, 3, 1⟩
    allDay := true, location := none, status := none, attendees := []
    url := none, color := none, providerId := "microsoft", accountId := "a"
    calendarId := "c", readOnly := false, conference := none, response := none
    recurringEventId := none
    metadata :=
      { originalStartTimeZone := none, originalEndTimeZone := none
        onlineMeeting := none, blockedTime := none } }

/-- Google wire event with a hangout link detecting service "meetA" and a
description whose URL detects service "zoomB" (under `detect0` /
`extract0`). -/
def gEvHangoutAndDesc : GoogleCalendarEvent :=
  { gEvBase with
      hangoutLink := some "https://meet.example.com/a"
      description := some "https://zoom.example.com/b" }

/-- Google wire event whose only candidate URL detects nothing. -/
def gEvNothing : GoogleCalendarEvent :=
  { gEvBase with location := some "https://unknown.example.com/x" }

/-- C8: attendee status mapping round-trips through the unknown status.
Canonical `unknown` serializes to Google "needsAction" (both serializer
spellings), "needsAction" parses back to `unknown`, and each of Microsoft
"notResponded" and "none" parses to canonical `unknown`, so
unknown → provider → unknown is the identity round-trip for both
providers. -/
theorem c8_unknown_status_round_trip :
    Google.toGoogleCalenderResponseStatus .unknown = .needsAction ∧
    Google.toGoogleCalendarAttendeeResponseStatus .unknown = .needsAction ∧
    Google.parseGoogleCalendarAttendeeStatus .needsAction = .unknown ∧
    Google.parseGoogleCalendarAttendeeStatus
      (Google.toGoogleCalenderResponseStatus .unknown) = .unknown ∧
    Microsoft.parseMicrosoftAttendeeStatus (some .notResponded) = .unknown ∧
    Microsoft.parseMicrosoftAttendeeStatus (some .msNone) = .unknown := by
  decide

/-- C2 counterexample: serializing the instant 0 toward Google emits a
date-time string that carries a `Z` UTC-offset designator (`offset = some
0`) and a payload with no time-zone field at all, not the zone-naive
string plus `"UTC"` zone the claim states for every provider. -/
theorem c2_counterexample :
    Google.toGoogleCalendarDate tzdb0 (.instant 0)
      = .dateTime { clock := 0, offset := some 0 } none ∧
    Google.toGoogleCalendarDate tzdb0 (.instant 0)
      ≠ .dateTime { clock := 0, offset := none } (some "UTC") := by
  exact ⟨rfl, by decide⟩

/-- C2 amended: only the Microsoft serializer projects an instant into the
UTC zone and emits a zone-naive date-time string with the zone field set
to "UTC"; the Google serializer emits the absolute instant string with its
`Z` designator and no zone field. -/
theorem c2_amended (db : TimeZoneDB) (t : Int) (orig : Option TimeZoneProvenance) :
    Microsoft.toMicrosoftDate db (.instant t) orig =
      { dateTime := .dateTime { clock := t, offset := none }, timeZone := "UTC" } ∧
    Google.toGoogleCalendarDate db (.instant t)
      = .dateTime { clock := t, offset := some 0 } none := by
  constructor
  · simp [Microsoft.toMicrosoftDate, zonedToPlainClock, db.utc_offset]
  · rfl

/-- C3 counterexample: serializing the calendar date 2024-03-01 toward
Microsoft produces a payload whose zone field is present (set to "UTC"),
not omitted as the claim states for every provider. -/
theorem c3_counterexample :
    Microsoft.toMicrosoftDate tzdb0 (.plainDate ⟨2024, 3, 1⟩) none
      = { dateTime := .dateOnly ⟨2024, 3, 1⟩, timeZone := "UTC" } ∧
    (Microsoft.toMicrosoftDate tzdb0 (.plainDate ⟨2024, 3, 1⟩) none).timeZone = "UTC" := by
  exact ⟨rfl, rfl⟩

/-- C3 amended: a calendar date serializes to a date-only payload on both
providers; Google omits the zone field (the `{date}` shape has none),
while Microsoft always populates its mandatory zone field with the
provenance raw string when present and "UTC" otherwise. -/
theorem c3_amended (db : TimeZoneDB) (d : PlainDate) (orig : Option TimeZoneProvenance) :
    Google.toGoogleCalendarDate db (.plainDate d) = .date d ∧
    Microsoft.toMicrosoftDate db (.plainDate d) orig =
      { dateTime := .dateOnly d, timeZone := (orig.map (·.raw)).getD "UTC" } := by
  exact ⟨rfl, rfl⟩

/-- C9: in the Microsoft provider, a carried response status of `unknown`
(or no carried response) never issues the accept / tentativelyAccept /
decline side call: the combined update operation issues only the event
patch, and the dedicated response-submission operation issues nothing. -/
theorem c9_unknown_never_triggers_side_call :
    (∀ ev : Microsoft.UpdateEventInput, ev.response = none →
        Microsoft.updateEventCalls ev = [.patchEvent]) ∧
    (∀ (ev : Microsoft.UpdateEventInput) (r : Microsoft.ResponseInput),
        ev.response = some r → r.status = .unknown →
        Microsoft.updateEventCalls ev = [.patchEvent]) ∧
    (∀ (ev : Microsoft.UpdateEventInput) (c : Microsoft.MsApiCall),
        (ev.response = none ∨ ∃ r, ev.response = some r ∧ r.status = .unknown) →
        c ∈ Microsoft.updateEventCalls ev →
        Microsoft.isResponseSubmission c = false) ∧
    (∀ r : Microsoft.ResponseInput, r.status = .unknown →
        Microsoft.responseToEventCalls r = []) := by
  refine ⟨?_, ?_, ?_, ?_⟩
  · intro ev h
    simp [Microsoft.updateEventCalls, h]
  · intro ev r h hs
    simp [Microsoft.updateEventCalls, h, hs]
  · intro ev c h hc
    rcases h with h | ⟨r, h, hs⟩
    · simp [Microsoft.updateEventCalls, h] at hc
      simp [hc, Microsoft.isResponseSubmission]
    · simp [Microsoft.updateEventCalls, h, hs] at hc
      simp [hc, Microsoft.isResponseSubmission]
  · intro r h
    simp [Microsoft.responseToEventCalls, h]

/-- C9 witness: concrete instances of every hypothesis-bearing conjunct. -/
theorem c9_witness :
    Microsoft.updateEventCalls { response := none } = [.patchEvent] ∧
    Microsoft.updateEventCalls
        { response := some { status := .unknown, comment := none, sendUpdate := false } }
      = [.patchEvent] ∧
    Microsoft.isResponseSubmission .patchEvent = false ∧
    Microsoft.responseToEventCalls
        { status := .unknown, comment := none, sendUpdate := false } = [] := by
  refine ⟨?_, ?_, ?_, ?_⟩
  · exact c9_unknown_never_triggers_side_call.1 _ rfl
  · exact c9_unknown_never_triggers_side_call.2.1 _ _ rfl rfl
  · exact c9_unknown_never_triggers_side_call.2.2.1 { response := none } .patchEvent
      (Or.inl rfl) (by simp [Microsoft.updateEventCalls])
  · exact c9_unknown_never_triggers_side_call.2.2.2 _ rfl

/-- C4 counterexample: in a mapped attendee list with organizer-flagged
attendees at indices 0 and 2, an organizer-flagged attendee sits at index
2 > 0, yet the normalizer leaves the list unchanged (only the first
organizer is considered), so that attendee is not moved to index 0 as the
claim states. -/
theorem c4_counterexample :
    (([cexOrganizerA, cexPlainB, cexOrganizerC].map
        Google.parseGoogleCalendarAttendee)[2]?).map Google.isOrganizer = some true ∧
    Google.parseGoogleCalendarAttendeeList [cexOrganizerA, cexPlainB, cexOrganizerC]
      = [cexOrganizerA, cexPlainB, cexOrganizerC].map Google.parseGoogleCalendarAttendee ∧
    (Google.parseGoogleCalendarAttendeeList
        [cexOrganizerA, cexPlainB, cexOrganizerC]).head?
      ≠ some (Google.parseGoogleCalendarAttendee cexOrganizerC) := by
  decide

/-- C4 amended: for any attendee list whose mapped form has its FIRST
organizer-flagged attendee at index k > 0, the normalized list is that
attendee followed by the remaining attendees with index k removed (all
other attendees in original relative order); when the first organizer is
already at index 0, or no organizer exists, every position is kept
unchanged. -/
theorem c4_amended (attendees : List GoogleCalendarEventAttendee) :
    (∀ k a,
        (attendees.map Google.parseGoogleCalendarAttendee).findIdx?
            Google.isOrganizer = some k →
        0 < k →
        (attendees.map Google.parseGoogleCalendarAttendee)[k]? = some a →
        Google.parseGoogleCalendarAttendeeList attendees =
          a :: (attendees.map Google.parseGoogleCalendarAttendee).eraseIdx k) ∧
    ((attendees.map Google.parseGoogleCalendarAttendee).findIdx?
          Google.isOrganizer = some 0 →
        Google.parseGoogleCalendarAttendeeList attendees =
          attendees.map Google.parseGoogleCalendarAttendee) ∧
    ((attendees.map Google.parseGoogleCalendarAttendee).findIdx?
          Google.isOrganizer = none →
        Google.parseGoogleCalendarAttendeeList attendees =
          attendees.map Google.parseGoogleCalendarAttendee) := by
  refine ⟨?_, ?_, ?_⟩
  · intro k a h hk ha
    unfold Google.parseGoogleCalendarAttendeeList
    simp only [h, if_pos hk, ha]
  · intro h
    unfold Google.parseGoogleCalendarAttendeeList
    simp only [h]
    simp
  · intro h
    unfold Google.parseGoogleCalendarAttendeeList
    simp only [h]

/-- C4 amended witness: a list with the organizer at index 1 is reordered
with it first; a list with the organizer first, and a list with no
organizer, are unchanged. -/
theorem c4_amended_witness :
    Google.parseGoogleCalendarAttendeeList [cexPlainB, cexOrganizerA] =
      Google.parseGoogleCalendarAttendee cexOrganizerA ::
        ([cexPlainB, cexOrganizerA].map Google.parseGoogleCalendarAttendee).eraseIdx 1 ∧
    Google.parseGoogleCalendarAttendeeList [cexOrganizerA, cexPlainB] =
      [cexOrganizerA, cexPlainB].map Google.parseGoogleCalendarAttendee ∧
    Google.parseGoogleCalendarAttendeeList [cexPlainB] =
      [cexPlainB].map Google.parseGoogleCalendarAttendee := by
  refine ⟨?_, ?_, ?_⟩
  · exact (c4_amended [cexPlainB, cexOrganizerA]).1 1 _ (by decide) (by decide) (by decide)
  · exact (c4_amended [cexOrganizerA, cexPlainB]).2.1 (by decide)
  · exact (c4_amended [cexPlainB]).2.2 (by decide)

/-- C6: for both blocked-time parsers, the JSON value
before -1 / after 15 yields exactly the after-15 window (non-positive and
non-numeric fields dropped), the value before 0 / after 0 yields no
blocked-time metadata at all, and malformed JSON yields no blocked-time
metadata. -/
theorem c6_blocked_time_validation :
    Google.parseBlockedTime (mkGoogleBtEvent bt1)
      = some { before := none, after := some 15 } ∧
    Google.parseBlockedTime (mkGoogleBtEvent bt2) = none ∧
    Google.parseBlockedTime (mkGoogleBtEvent btBad) = none ∧
    Microsoft.parseBlockedTime (mkMsBtEvent bt1)
      = some { before := none, after := some 15 } ∧
    Microsoft.parseBlockedTime (mkMsBtEvent bt2) = none ∧
    Microsoft.parseBlockedTime (mkMsBtEvent btBad) = none := by
  refine ⟨rfl, rfl, rfl, by decide, by decide, by decide⟩

/-- C10 counterexample: with a blockedTime value in BOTH maps — the
private one the empty string, the shared one valid JSON — the parser
returns the shared map's window, so the shared value is consulted and not
ignored even though the private map has the blockedTime key. -/
theorem c10_counterexample :
    Google.parseBlockedTime (mkGoogleEpEvent
        { priv := some [("blockedTime", emptyJsStr)]
          shared := some [("blockedTime", btShared5)] })
      = some { before := none, after := some 5 } ∧
    validateBlockedTime emptyJsStr.json = none := by
  exact ⟨rfl, rfl⟩

/-- C10 amended: the Google blocked-time parser reads the private map's
value whenever that value is truthy (present and non-empty), ignoring the
shared map; the shared map is consulted exactly when the private map has
no blockedTime key or its value is the empty string. -/
theorem c10_amended :
    (∀ (ev : GoogleCalendarEvent) (ep : GoogleExtendedProperties) (v : JSString),
        ev.extendedProperties = some ep →
        ep.priv.bind (recordGet · "blockedTime") = some v →
        v.raw ≠ "" →
        Google.parseBlockedTime ev = validateBlockedTime v.json) ∧
    (∀ (ev : GoogleCalendarEvent) (ep : GoogleExtendedProperties) (w : JSString),
        ev.extendedProperties = some ep →
        (ep.priv.bind (recordGet · "blockedTime") = none ∨
          ∃ v, ep.priv.bind (recordGet · "blockedTime") = some v ∧ v.raw = "") →
        ep.shared.bind (recordGet · "blockedTime") = some w →
        Google.parseBlockedTime ev =
          (if w.raw == "" then none else validateBlockedTime w.json)) := by
  constructor
  · intro ev ep v hep hpriv hraw
    unfold Google.parseBlockedTime
    rw [hep]
    have hp : ep.priv.isNone = false := by
      cases hps : ep.priv <;> simp [hps] at hpriv ⊢
    simp [hp, hpriv, jsOr, hraw]
  · intro ev ep w hep hpriv hshared
    unfold Google.parseBlockedTime
    rw [hep]
    have hs : ep.shared.isNone = false := by
      cases hss : ep.shared <;> simp [hss] at hshared ⊢
    rcases hpriv with hpriv | ⟨v, hpriv, hvraw⟩
    · simp [hs, hpriv, hshared, jsOr]
    · simp [hs, hpriv, hshared, jsOr, hvraw]

/-- C10 amended witness: a truthy private value wins over the shared map;
an empty private value hands over to the shared map. -/
theorem c10_amended_witness :
    Google.parseBlockedTime (mkGoogleEpEvent
        { priv := some [("blockedTime", bt1)]
          shared := some [("blockedTime", btShared5)] })
      = validateBlockedTime bt1.json ∧
    Google.parseBlockedTime (mkGoogleEpEvent
        { priv := some [("blockedTime", emptyJsStr)]
          shared := some [("blockedTime", btShared5)] })
      = (if btShared5.raw == "" then none else validateBlockedTime btShared5.json) := by
  constructor
  · exact c10_amended.1 _ _ _ rfl rfl (by decide)
  · exact c10_amended.2 _ _ _ rfl (Or.inr ⟨emptyJsStr, rfl, rfl⟩) rfl

/-- C1 counterexample: a Microsoft-serialized instant (naive UTC string
plus zone "UTC") parses back as a zoned date-time anchored to UTC, not as
the original instant — the variant is not preserved, and this is not the
zone-provenance exception (no provenance was involved). -/
theorem c1_counterexample :
    Microsoft.parseDateTime tzdb0
        (Microsoft.toMicrosoftDate tzdb0 (.instant 0) none).dateTime
        (Microsoft.toMicrosoftDate tzdb0 (.instant 0) none).timeZone
      = .zoned 0 "UTC" ∧
    Microsoft.parseDateTime tzdb0
        (Microsoft.toMicrosoftDate tzdb0 (.instant 0) none).dateTime
        (Microsoft.toMicrosoftDate tzdb0 (.instant 0) none).timeZone
      ≠ .instant 0 := by
  exact ⟨by decide, by decide⟩

/-- C1 amended: parse after serialize is the identity for every Google
variant and for Microsoft calendar dates and zoned date-times (exactly,
even under provenance substitution of the emitted zone string, whenever
the zone resolution maps the emitted string back to the value's zone); a
Microsoft instant, however, comes back as a zoned date-time in UTC
denoting the same point on the time line, not as an instant. -/
theorem c1_amended (db : TimeZoneDB) :
    (∀ d, Google.parseGoogleDateValue (Google.toGoogleCalendarDate db (.plainDate d))
        = some (.plainDate d)) ∧
    (∀ t, Google.parseGoogleDateValue (Google.toGoogleCalendarDate db (.instant t))
        = some (.instant t)) ∧
    (∀ t z, Google.parseGoogleDateValue (Google.toGoogleCalendarDate db (.zoned t z))
        = some (.zoned t z)) ∧
    (∀ d orig,
        Microsoft.parseDate (Microsoft.toMicrosoftDate db (.plainDate d) orig).dateTime
          = some d) ∧
    (∀ t z, db.parseTz z = some z →
        Microsoft.parseDateTime db
            (Microsoft.toMicrosoftDate db (.zoned t z) none).dateTime
            (Microsoft.toMicrosoftDate db (.zoned t z) none).timeZone
          = .zoned t z) ∧
    (∀ t z raw, db.parseTz raw = some z →
        Microsoft.parseDateTime db
            (Microsoft.toMicrosoftDate db (.zoned t z)
              (some { raw := raw, parsed := some z })).dateTime
            (Microsoft.toMicrosoftDate db (.zoned t z)
              (some { raw := raw, parsed := some z })).timeZone
          = .zoned t z) ∧
    (∀ t, Microsoft.parseDateTime db
            (Microsoft.toMicrosoftDate db (.instant t) none).dateTime
            (Microsoft.toMicrosoftDate db (.instant t) none).timeZone
          = .zoned t "UTC") := by
  refine ⟨fun d => rfl, ?_, ?_, fun d orig => rfl, ?_, ?_, ?_⟩
  · intro t
    simp [Google.parseGoogleDateValue, Google.parseDateTime, Google.toGoogleCalendarDate,
      instantToStringWire, instantFromWire]
  · intro t z
    simp [Google.parseGoogleDateValue, Google.parseDateTime, Google.toGoogleCalendarDate,
      zonedToStringWire, instantFromWire]
  · intro t z h
    simp [Microsoft.parseDateTime, Microsoft.toMicrosoftDate, instantToStringWire, h]
  · intro t z raw h
    simp [Microsoft.parseDateTime, Microsoft.toMicrosoftDate, instantToStringWire, h]
  · intro t
    simp [Microsoft.parseDateTime, Microsoft.toMicrosoftDate, zonedToPlainClock,
      db.utc_parseTz, db.utc_offset, db.utc_fromLocal]

/-- C1 amended witness: concrete zoned round-trips with and without
provenance substitution under the concrete environment. -/
theorem c1_amended_witness :
    Microsoft.parseDateTime tzdb0
        (Microsoft.toMicrosoftDate tzdb0 (.zoned 100 "Europe/Berlin") none).dateTime
        (Microsoft.toMicrosoftDate tzdb0 (.zoned 100 "Europe/Berlin") none).timeZone
      = .zoned 100 "Europe/Berlin" ∧
    Microsoft.parseDateTime tzdb0
        (Microsoft.toMicrosoftDate tzdb0 (.zoned 100 "Europe/Berlin")
          (some { raw := "W. Europe Standard Time", parsed := some "Europe/Berlin" })).dateTime
        (Microsoft.toMicrosoftDate tzdb0 (.zoned 100 "Europe/Berlin")
          (some { raw := "W. Europe Standard Time", parsed := some "Europe/Berlin" })).timeZone
      = .zoned 100 "Europe/Berlin" := by
  exact ⟨(c1_amended tzdb0).2.2.2.2.1 100 "Europe/Berlin" (by decide),
    (c1_amended tzdb0).2.2.2.2.2.1 100 "Europe/Berlin" "W. Europe Standard Time" (by decide)⟩

/-- Computation rule for `Except.bind` on a success. -/
theorem except_bind_ok_eq {ε α β : Type} (a : α) (k : α → Except ε β) :
    Except.bind (Except.ok a) k = k a := rfl

/-- Computation rule for `Except.bind` on a failure. -/
theorem except_bind_error_eq {ε α β : Type} (e : ε) (k : α → Except ε β) :
    Except.bind (Except.error e : Except ε α) k = Except.error e := rfl

/-- The response field of a successfully parsed Microsoft event is exactly
the wrapped result of `parseResponseStatus`. -/
theorem msParse_ok_response (db : TimeZoneDB) (detect : String → Option MeetingService)
    (accountId : String) (cal : Calendar) (ev : MicrosoftEvent) (ce : CalendarEvent)
    (h : Microsoft.parseMicrosoftEvent db detect accountId cal ev = Except.ok ce) :
    ce.response = (Microsoft.parseResponseStatus ev).map fun s =>
      ({ status := s, comment := none } : EventResponse) := by
  unfold Microsoft.parseMicrosoftEvent at h
  split at h
  next start stop hstart hstop =>
    rcases hA : Microsoft.msDateField db (ev.isAllDay.getD false) start with e | sv
    · rw [hA, except_bind_error_eq] at h
      exact Except.noConfusion h
    · rw [hA, except_bind_ok_eq] at h
      rcases hB : Microsoft.msDateField db (ev.isAllDay.getD false) stop with e | sv2
      · rw [hB, except_bind_error_eq] at h
        exact Except.noConfusion h
      · rw [hB, except_bind_ok_eq] at h
        cases h
        rfl
  next => exact Except.noConfusion h

/-- `parseResponseStatus` yields nothing when no organizer-flagged attendee
exists or no second attendee accompanies it. -/
theorem prsNoneOfNotCond (ev : MicrosoftEvent)
    (h : ((ev.attendees.getD []).any fun a =>
          a.status.bind (·.response) == some .organizer) = false
        ∨ ¬(1 < (ev.attendees.getD []).length)) :
    Microsoft.parseResponseStatus ev = none := by
  rcases hatt : ev.attendees with _ | l
  · simp [Microsoft.parseResponseStatus, hatt]
  · rcases h with hany | hlen
    · rw [hatt] at hany
      simp only [Option.getD_some] at hany
      simp [Microsoft.parseResponseStatus, hatt, hany]
    · rw [hatt] at hlen
      simp only [Option.getD_some] at hlen
      cases hany : l.any fun a => a.status.bind (·.response) == some .organizer
      · simp [Microsoft.parseResponseStatus, hatt, hany]
      · rcases l with _ | ⟨a0, l0⟩
        · simp at hany
        · have hl0 : l0 = [] := by
            rcases l0 with _ | _
            · rfl
            · exact absurd (by simp) hlen
          subst hl0
          simp [Microsoft.parseResponseStatus, hatt, hany]

/-- C5: `parseMicrosoftEvent` includes a viewer response in the canonical
event only when an organizer-status attendee is present and at least one
other attendee exists; with no attendees, a lone organizer, or no
organizer among the attendees, the response field is omitted. -/
theorem c5_response_only_with_organizer_and_others
    (db : TimeZoneDB) (detect : String → Option MeetingService)
    (accountId : String) (cal : Calendar) (ev : MicrosoftEvent) (ce : CalendarEvent)
    (h : Microsoft.parseMicrosoftEvent db detect accountId cal ev = Except.ok ce) :
    (ce.response.isSome = true →
        ((ev.attendees.getD []).any fun a =>
            a.status.bind (·.response) == some .organizer) = true
          ∧ 1 < (ev.attendees.getD []).length) ∧
    (ev.attendees = none → ce.response = none) ∧
    (ev.attendees = some [] → ce.response = none) ∧
    (∀ a, ev.attendees = some [a] → ce.response = none) ∧
    (((ev.attendees.getD []).any fun a =>
        a.status.bind (·.response) == some .organizer) = false → ce.response = none) := by
  have hresp := msParse_ok_response db detect accountId cal ev ce h
  refine ⟨?_, ?_, ?_, ?_, ?_⟩
  · intro hs
    cases hany : ((ev.attendees.getD []).any fun a =>
        a.status.bind (·.response) == some .organizer) with
    | false =>
        rw [prsNoneOfNotCond ev (Or.inl hany)] at hresp
        rw [hresp] at hs
        simp at hs
    | true =>
        by_cases hlen : 1 < (ev.attendees.getD []).length
        · exact ⟨rfl, hlen⟩
        · rw [prsNoneOfNotCond ev (Or.inr hlen)] at hresp
          rw [hresp] at hs
          simp at hs
  · intro hatt
    rw [prsNoneOfNotCond ev (Or.inl (by simp [hatt]))] at hresp
    simpa using hresp
  · intro hatt
    rw [prsNoneOfNotCond ev (Or.inl (by simp [hatt]))] at hresp
    simpa using hresp
  · intro a hatt
    rw [prsNoneOfNotCond ev (Or.inr (by simp [hatt]))] at hresp
    simpa using hresp
  · intro hany
    rw [prsNoneOfNotCond ev (Or.inl hany)] at hresp
    simpa using hresp

/-- C5 witness: a concrete all-day event with no attendees parses
successfully and carries no response. -/
theorem c5_witness :
    Microsoft.parseMicrosoftEvent tzdb0 detect0 "a" { id := "c", readOnly := false } msEvX
      = Except.ok ceX ∧ ceX.response = none := by
  have h : Microsoft.parseMicrosoftEvent tzdb0 detect0 "a"
      { id := "c", readOnly := false } msEvX = Except.ok ceX := rfl
  exact ⟨h, (c5_response_only_with_organizer_and_others tzdb0 detect0 "a"
    { id := "c", readOnly := false } msEvX ceX h).2.1 rfl⟩

/-- `findSome?` over an append is the ordered disjunction of the two
scans. -/
theorem findSomeAppend {α β : Type} (l1 l2 : List α) (f : α → Option β) :
    (l1 ++ l2).findSome? f = (l1.findSome? f <|> l2.findSome? f) := by
  induction l1 with
  | nil => simp
  | cons a t ih =>
      cases h : f a
      · simp [List.findSome?_cons, h, ih]
      · simp [List.findSome?_cons, h]

/-- A direct-URL section scans exactly its candidate list. -/
theorem urlFieldHit_eq_scan (detect : String → Option MeetingService)
    (o : Option String) :
    Google.urlFieldHit detect o =
      (Google.urlFieldCand o).findSome? (Google.checkMeetingLink detect) := by
  rcases o with _ | u
  · simp [Google.urlFieldHit, Google.urlFieldCand]
  · by_cases hu : u == ""
    · simp [Google.urlFieldHit, Google.urlFieldCand, hu]
    · cases hc : Google.checkMeetingLink detect u <;>
        simp [Google.urlFieldHit, Google.urlFieldCand, hu, hc, List.findSome?_cons]

/-- A free-text section scans exactly its candidate list. -/
theorem textFieldHit_eq_scan (detect : String → Option MeetingService)
    (extractUrls : String → List String) (o : Option String) :
    Google.textFieldHit detect extractUrls o =
      (Google.textFieldCand extractUrls o).findSome? (Google.checkMeetingLink detect) := by
  rcases o with _ | d
  · simp [Google.textFieldHit, Google.textFieldCand]
  · by_cases hd : d == "" <;> simp [Google.textFieldHit, Google.textFieldCand, hd]

/-- The attachments section scans exactly its candidate list. -/
theorem attachmentsHit_eq_scan (detect : String → Option MeetingService)
    (o : Option (List GoogleAttachment)) :
    Google.attachmentsHit detect o =
      (Google.attachmentsCand o).findSome? (Google.checkMeetingLink detect) := by
  rcases o with _ | atts
  · simp [Google.attachmentsHit, Google.attachmentsCand]
  · simp only [Google.attachmentsHit, Google.attachmentsCand]
    induction atts with
    | nil => simp
    | cons a t ih =>
        rw [List.flatMap_cons, findSomeAppend, ← ih, List.findSome?_cons,
          urlFieldHit_eq_scan]
        cases hc : (Google.urlFieldCand a.fileUrl).findSome?
            (Google.checkMeetingLink detect) <;> simp [hc]

/-- Associativity of the ordered choice on options. -/
theorem optionOrElseAssoc {α : Type} (a b c : Option α) :
    ((a <|> b) <|> c) = (a <|> (b <|> c)) := by
  cases a <;> simp

/-- The fallback chain equals the single ordered scan over all candidate
URLs. -/
theorem fallbackEqScan (detect : String → Option MeetingService)
    (extractUrls : String → List String) (event : GoogleCalendarEvent) :
    Google.parseGoogleCalendarConferenceFallback detect extractUrls event =
      (Google.fallbackCandidateUrls extractUrls event).findSome?
        (Google.checkMeetingLink detect) := by
  unfold Google.parseGoogleCalendarConferenceFallback Google.fallbackCandidateUrls
  simp only [findSomeAppend, urlFieldHit_eq_scan, textFieldHit_eq_scan,
    attachmentsHit_eq_scan, optionOrElseAssoc]

/-- C7: with no native conference entry points, resolution is the fallback
scan; the fallback scan is the ordered first-match over hangout link,
description URLs, location URLs, source URL, attachment file URLs and
gadget link — in particular a detected hangout link wins regardless of any
later field — and when no candidate resolves the result is `none`, never
an empty conference. -/
theorem c7_conference_fallback_resolution (detect : String → Option MeetingService)
    (extractUrls : String → List String) (event : GoogleCalendarEvent) :
    ((event.conferenceData.bind (·.entryPoints)).getD [] = [] →
        Google.parseGoogleCalendarConferenceData detect extractUrls event =
          Google.parseGoogleCalendarConferenceFallback detect extractUrls event) ∧
    (Google.parseGoogleCalendarConferenceFallback detect extractUrls event =
        (Google.fallbackCandidateUrls extractUrls event).findSome?
          (Google.checkMeetingLink detect)) ∧
    (∀ h A, event.hangoutLink = some h → ¬(h = "") →
        Google.checkMeetingLink detect h = some A →
        Google.parseGoogleCalendarConferenceFallback detect extractUrls event = some A) ∧
    ((∀ u ∈ Google.fallbackCandidateUrls extractUrls event, detect u = none) →
        Google.parseGoogleCalendarConferenceFallback detect extractUrls event = none) := by
  refine ⟨?_, fallbackEqScan detect extractUrls event, ?_, ?_⟩
  · intro hguard
    rcases hcd : event.conferenceData with _ | cd
    · simp [Google.parseGoogleCalendarConferenceData, hcd]
    · rcases hep : cd.entryPoints with _ | eps
      · simp [Google.parseGoogleCalendarConferenceData, hcd, hep]
      · rw [hcd] at hguard
        simp [hep] at hguard
        subst hguard
        simp [Google.parseGoogleCalendarConferenceData, hcd, hep]
  · intro h A hh hne hA
    unfold Google.parseGoogleCalendarConferenceFallback
    simp [Google.urlFieldHit, hh, hne, hA]
  · intro hall
    rw [fallbackEqScan]
    refine List.findSome?_eq_none_iff.mpr fun u hu => ?_
    simp [Google.checkMeetingLink, hall u hu]

/-- C7 witness: under the concrete detector, a hangout link resolving to
provider "meetA" wins over a description URL resolving to provider
"zoomB"; an event whose only candidate resolves to nothing yields `none`,
also through the entry-point guard. -/
theorem c7_witness :
    Google.parseGoogleCalendarConferenceData detect0 extract0 gEvNothing =
      Google.parseGoogleCalendarConferenceFallback detect0 extract0 gEvNothing ∧
    Google.parseGoogleCalendarConferenceFallback detect0 extract0 gEvHangoutAndDesc
      = some
        { id := some "meetA", conferenceId := none, name := some "Meet A"
          video := some
            { joinUrl := { label := none, value := "https://meet.example.com/a" }
              meetingCode := some "meetA", accessCode := none, password := none }
          sip := none, phone := none, hostUrl := none, notes := none, extra := none } ∧
    Google.checkMeetingLink detect0 "https://zoom.example.com/b" ≠ none ∧
    Google.parseGoogleCalendarConferenceFallback detect0 extract0 gEvNothing = none := by
  refine ⟨?_, ?_, by decide, ?_⟩
  · exact (c7_conference_fallback_resolution detect0 extract0 gEvNothing).1 rfl
  · exact (c7_conference_fallback_resolution detect0 extract0 gEvHangoutAndDesc).2.2.1
      "https://meet.example.com/a" _ rfl (by decide) (by decide)
  · refine (c7_conference_fallback_resolution detect0 extract0 gEvNothing).2.2.2 ?_
    intro u hu
    rw [show Google.fallbackCandidateUrls extract0 gEvNothing
        = ["https://unknown.example.com/x"] from rfl] at hu
    simp at hu
    subst hu
    decide
